import Mathlib

set_option maxRecDepth 4096

/-!
Shallow embedding of the refrepo-ace repository (refrepo_git.py and
refrepo_ace.py) together with proofs about its core logic: the git
argument rewriter, the remote name deriver, the config store, the
alternates injector and the reference repository reconciliation step.

Python strings are modelled as Lean `String` (sequences of unicode
characters, which matches Python's `str` indexing and slicing for the
inputs considered here).  Filesystem state is made explicit: directory
existence checks become boolean oracles and file contents become
explicit values.  Functions that can raise an uncaught Python exception
return `Option` (`none` = exception) or carry an explicit "raised" flag.
-/

/-! ## String helpers

Python string primitives modelled over the character list of a `String`
(the core library's `Substring`-based versions are avoided so that the
kernel can evaluate every definition on concrete inputs). -/

/-- `s.startswith(p)`. -/
def strStartsWith (s p : String) : Bool := p.data.isPrefixOf s.data

/-- `s.endswith(p)`; also Python's `s[-len(p):] == p`. -/
def strEndsWith (s p : String) : Bool := p.data.isSuffixOf s.data

/-- `s.lower()` (ASCII letters; the URLs involved are ASCII). -/
def strLower (s : String) : String := String.mk (s.data.map Char.toLower)

/-- `s.replace(a, b)` for one-character patterns. -/
def replaceChar (a b : Char) (s : String) : String :=
  String.mk (s.data.map (fun c => if c = a then b else c))

/-- The ASCII whitespace characters removed by Python's `str.strip()`. -/
def isPyWhite (c : Char) : Bool :=
  c = ' ' || c = '\t' || c = '\n' || c = '\r' || c = '\x0b' || c = '\x0c'

/-- `s.strip()`. -/
def strTrim (s : String) : String :=
  String.mk (((s.data.dropWhile isPyWhite).reverse.dropWhile isPyWhite).reverse)

/-- Helper for `splitChar`: accumulates the current piece (reversed). -/
def splitCharAux (c : Char) : List Char → List Char → List String
  | [], acc => [String.mk acc.reverse]
  | x :: xs, acc =>
    if x = c then String.mk acc.reverse :: splitCharAux c xs []
    else splitCharAux c xs (x :: acc)

/-- Split on a one-character separator, keeping empty pieces (the
behaviour of both Python's `s.split(c)` and Lean's `String.splitOn`). -/
def splitChar (c : Char) (s : String) : List String := splitCharAux c s.data []

/-! ## Path model

`pathlib.Path` stores a normalized form of the path string: empty path
becomes ".", repeated slashes and "." segments are collapsed, a trailing
slash is removed, and a leading "//" (but not "///") is preserved, per
POSIX.  `Path.__eq__` compares these normalized forms, and `str(path)`
returns the normalized form.  We model that normalization directly on
strings (for strings without NUL or backslash quirks, which do not occur
in the claims). -/

/-- Normalized string form of `pathlib.PurePosixPath s`. -/
def pathNorm (s : String) : String :=
  let root : String :=
    if strStartsWith s "//" && !(strStartsWith s "///") then "//"
    else if strStartsWith s "/" then "/"
    else ""
  let segs := (splitChar '/' s).filter (fun t => t ≠ "" && t ≠ ".")
  if segs.isEmpty then (if root.isEmpty then "." else root)
  else root ++ String.intercalate "/" segs

/-- Model of `pathlib`'s `/` operator followed by `str`: `str(Path a / b)`.
If `b` is absolute it replaces `a` entirely. -/
def pathJoin (a b : String) : String :=
  pathNorm (if strStartsWith b "/" then b else a ++ "/" ++ b)

/-! ## Git argument rewriter (refrepo_git.py)

`drop_pre_command_git_args(args)` in the source is a `while` loop:

    while args:
        if args[0][0] != "-": break
        if args[0] == "-C" or args[0] == "-c": args = args[2:]
        else: args = args[1:]
    return args

Indexing `args[0][0]` raises `IndexError` when `args[0]` is the empty
string, which we model by returning `none`.  Slicing `args[2:]` of a
one-element list is `[]`. -/

/-- Model of `drop_pre_command_git_args` from refrepo_git.py (lines
246-255).  `none` models the uncaught `IndexError` on an empty-string
token examined by the loop.  On a one-element list both `args[2:]`
(the `-C`/`-c` case) and `args[1:]` (any other option) are `[]`, after
which the loop exits, so both branches return `some []`. -/
def drop_pre_command_git_args : List String → Option (List String)
  | [] => some []
  | [a] =>
    match a.data.head? with
    | none => none
    | some c =>
      if c ≠ '-' then some [a]
      else some []
  | a :: b :: rest =>
    match a.data.head? with
    | none => none
    | some c =>
      if c ≠ '-' then some (a :: b :: rest)
      else if a = "-C" || a = "-c" then drop_pre_command_git_args rest
      else drop_pre_command_git_args (b :: rest)

/-- Model of `inject_reference_repo_arg(args, root_dir, repo)` from
refrepo_git.py (lines 258-281).  `isDir` is the filesystem oracle for
`Path.is_dir()`.  The two Python `list.insert` calls at `insert_pos`
and `insert_pos + 1` are modelled with `take`/`drop`.  `none` models
the uncaught `IndexError` propagating out of
`drop_pre_command_git_args`. -/
def inject_reference_repo_arg (isDir : String → Bool) (args : List String)
    (root_dir repo : String) : Option (List String) :=
  let repo_path := pathJoin root_dir repo
  if isDir repo_path = false then some args
  else
    match drop_pre_command_git_args args with
    | none => none
    | some dargs =>
      let dropped := args.length - dargs.length
      let insert_pos : Int :=
        if dargs.head? = some "clone" then 1
        else if 2 ≤ dargs.length ∧ dargs.head? = some "submodule" ∧ dargs[1]? = some "add" then 2
        else if 2 ≤ dargs.length ∧ dargs.head? = some "submodule" ∧ dargs[1]? = some "update" then 2
        else -1
      if 0 < insert_pos then
        let p := insert_pos.toNat + dropped
        some (args.take p ++ ["--reference", repo_path] ++ args.drop p)
      else some args

/-- Model of `should_update_remotes(args)` from refrepo_git.py (lines
309-320). -/
def should_update_remotes (args : List String) : Option Bool :=
  match drop_pre_command_git_args args with
  | none => none
  | some a =>
    if a.head? = some "clone" ∨ a.head? = some "fetch" ∨
        a.head? = some "pull" ∨ a.head? = some "checkout" then some true
    else if 2 ≤ a.length ∧ a.head? = some "submodule" ∧ a[1]? = some "update" then some true
    else some false

/-- The fixed table of two-token options of `git clone` skipped by
`get_clone_target_path` (refrepo_git.py lines 92-107). -/
def cloneTwoTokenOpts : List String :=
  ["-o", "--origin", "-b", "--branch", "-u", "--upload-pack", "-c", "--config",
   "--reference", "--reference-if-able", "--separate-git-dir", "--depth", "-j", "--jobs"]

/-- The option-skipping loop of `get_clone_target_path` (refrepo_git.py
lines 86-110).  Unlike `drop_pre_command_git_args`, this loop does
treat a bare `"--"` as a terminator: it is dropped and the loop stops.
`none` models the `IndexError` on an empty-string token.  On a
one-element list every option branch leaves `[]` (slicing past the
end), so they all return `some []`. -/
def dropCloneOpts : List String → Option (List String)
  | [] => some []
  | [a] =>
    match a.data.head? with
    | none => none
    | some c =>
      if c ≠ '-' then some [a]
      else some []
  | a :: b :: rest =>
    match a.data.head? with
    | none => none
    | some c =>
      if c ≠ '-' then some (a :: b :: rest)
      else if a = "--" then some (b :: rest)
      else if a ∈ cloneTwoTokenOpts then dropCloneOpts rest
      else dropCloneOpts (b :: rest)

/-- The substring of `url` after the last `'/'`, i.e.
`url[url.rfind("/") + 1 :]`; `none` when `url` contains no `'/'`
(Python `rfind` returns `-1`). -/
def lastSegmentAfterSlash (url : String) : Option String :=
  if url.data.contains '/' then
    some (String.mk ((url.data.reverse.takeWhile (fun c => c ≠ '/')).reverse))
  else none

/-- Model of `get_clone_target_path(args)` from refrepo_git.py (lines
84-129).  `none` models the uncaught exceptions: the explicit
`raise Exception(...)` at line 129 and the `IndexError` on an
empty-string token in the skipping loop.  `dir_name[-4:] == ".git"`
holds exactly when `dir_name` ends with `".git"`. -/
def get_clone_target_path (args : List String) : Option String :=
  match dropCloneOpts args with
  | none => none
  | some args2 =>
    if 2 ≤ args2.length then args2[1]?
    else
      match args2 with
      | [] => none
      | url :: _ =>
        match lastSegmentAfterSlash url with
        | none => none
        | some dir0 =>
          let dir1 := if strEndsWith dir0 ".git" then dir0.dropRight 4 else dir0
          if 0 < dir1.length then some dir1 else none

/-! ## Alternates injector and wrapper entry point (refrepo_git.py)

`add_alternates(args, root_dir, repo)` touches and possibly appends to
the client repository's `.git/objects/info/alternates` file.  We model
the relevant filesystem state explicitly: whether
`root_dir/repo/objects` is a directory, whether the client's
`.git/objects/info` is a directory, and the content of the alternates
file (`none` = the file does not exist). -/

structure AltFS where
  objectsIsDir : Bool
  infoIsDir : Bool
  alternates : Option String
deriving DecidableEq

/-- The lines produced by Python's `for line in f` iteration over a file
whose whole content is `c`, with the line terminators left on the lines.
Since each line is immediately passed through `.strip()`, we model the
lines without the terminators: split on newline, dropping the final
empty piece that `splitOn` produces when `c` ends in a newline. -/
def pyLines (c : String) : List String :=
  if c = "" then []
  else
    let parts := splitChar '\n' c
    if parts.getLast? = some "" then parts.dropLast else parts

/-- Model of `add_alternates(args, root_dir, repo)` from refrepo_git.py
(lines 284-306).  `objPath` is `str(root_dir / repo / "objects")`.
Returns the new filesystem state together with a flag that is `true`
when the function raised an uncaught exception (the `IndexError` from
`drop_pre_command_git_args`, which happens after the `touch`).  The
line comparison `Path(line.strip()) == objects_path` compares
normalized path forms. -/
def add_alternates (args : List String) (objPath : String) (fs : AltFS) :
    AltFS × Bool :=
  if fs.objectsIsDir = false then (fs, false)
  else if fs.infoIsDir = false then (fs, false)
  else
    let content := fs.alternates.getD ""
    let fs1 : AltFS := { fs with alternates := some content }
    match drop_pre_command_git_args args with
    | none => (fs1, true)
    | some args2 =>
      if args2.head? = some "fetch" then
        if (pyLines content).any (fun line => pathNorm (strTrim line) = pathNorm objPath) then
          (fs1, false)
        else
          ({ fs1 with alternates := some (content ++ objPath ++ "\n") }, false)
      else (fs1, false)

/-- Model of the exit code of `main()` in refrepo_git.py (lines
323-351), for the case where the root-directory variable is set.
`gitRc` is the exit code the wrapped git process returns when invoked;
`reconRaises` says whether `should_update_remotes` or
`update_required_remotes` raises inside the `try` block (such an
exception is caught and logged, so it cannot influence the result).
An uncaught exception in `inject_reference_repo_arg` or
`add_alternates` — both run before the wrapped git process — makes the
Python interpreter exit with code 1 without ever running git.
`wrap_git` calls `sys.exit(returncode)` when git's exit code is
nonzero; otherwise `main` falls through and the process exits 0. -/
def main_exit (isDir : String → Bool) (args : List String)
    (root_dir repo : String) (fs : AltFS) (gitRc : Nat)
    (reconRaises : Bool) : Nat :=
  match inject_reference_repo_arg isDir args root_dir repo with
  | none => 1
  | some _injected =>
    let objPath := pathJoin (pathJoin root_dir repo) "objects"
    let afterAlt := add_alternates args objPath fs
    if afterAlt.2 then 1
    else if gitRc ≠ 0 then gitRc
    else
      let _ := reconRaises
      0

/-! ## Config store (refrepo_git.py `atomic_write`)

The config directory is modelled as an association list from file path
to file content; `lookupFile` is `Path.is_file()` plus `read_text`.
The source writes the data to a fresh temporary file and renames it
into place; in this single-process model the rename succeeds, and the
net effect on the directory is creating the file.  (A lost rename race
returns `False` and leaves the directory unchanged, which the spec
treats as equivalent to the file already existing.) -/

abbrev ConfDir := List (String × String)

/-- The content of the file at `p`, if it exists. -/
def lookupFile (d : ConfDir) (p : String) : Option String :=
  (d.find? (fun e => e.1 = p)).map Prod.snd

/-- Model of `atomic_write(path, data)` from refrepo_git.py (lines
185-197): create-only write.  When the file already exists the Python
function returns `None` (falsy, "not written"), modelled as `false`. -/
def atomic_write (d : ConfDir) (path data : String) : ConfDir × Bool :=
  if (lookupFile d path).isSome then (d, false)
  else ((path, data) :: d, true)

/-! ## Reference repository reconciliation (refrepo_ace.py `update`)

`update(root_dir, repo, conf_dir)` lists the reference repository's
current remote names, adds every remote from the config store whose
name is not present, removes every present name the store does not
request, and finally fetches.  We model the repository's remote set as
a `Finset String` and a config-store record as a name/url pair.  The
names of the requested records come from distinct `*.remote` file
stems, so they are pairwise distinct; the derived add/remove git
operations are modelled as set insertions/deletions. -/

abbrev RemoteRec := String × String

/-- The records the loop at refrepo_ace.py lines 102-114 passes to
`git remote add`: the requested records whose name is not already an
existing remote. -/
def addedRemotes (existing : Finset String) (requested : List RemoteRec) :
    List RemoteRec :=
  requested.filter (fun r => r.1 ∉ existing)

/-- `requested_remotes_set` from refrepo_ace.py lines 101-103: the set
of names of the requested records. -/
def requestedNames (requested : List RemoteRec) : Finset String :=
  (requested.map Prod.fst).toFinset

/-- `discardable_remotes` from refrepo_ace.py line 117: names passed to
`git remote remove`. -/
def removedRemotes (existing : Finset String) (requested : List RemoteRec) :
    Finset String :=
  existing \ requestedNames requested

/-- The reference repository's remote set after `update` runs: the
existing names, plus every added name, minus every removed name. -/
def updateRemoteSet (existing : Finset String) (requested : List RemoteRec) :
    Finset String :=
  (existing ∪ ((addedRemotes existing requested).map Prod.fst).toFinset) \
    removedRemotes existing requested

/-! ## Remote name deriver (refrepo_git.py `make_remote_name`)

The source extracts the "human" component of a URL with the Python
regular expression (re.search, anchored by `^` and `$`):

    (^[A-Za-z][A-Za-z0-9+.-]*://.+?/|^[^/]+?:|^)(.+?)(\.git)?/?$

We model the behaviour of Python's backtracking engine on this pattern
directly (for strings without newline characters — `.` does not match a
newline, and remote URLs contain none):

* first alternative (`scheme://` URL): the scheme is a letter followed
  by a maximal run of `[A-Za-z0-9+.-]` (the class contains neither `:`
  nor `/`, so it is forced), then `://`; the lazy `.+?/` then consumes
  up to the first `/` at least one character past `://` that still
  leaves a nonempty remainder for the lazy group 2;
* second alternative (SCP style): `[^/]+?:` consumes up to the first
  `:` at index ≥ 1 that is preceded by no `/` and still leaves a
  nonempty remainder;
* third alternative: the empty prefix; the whole string is the
  remainder, so the match fails only on the empty string (in which case
  the source calls `.group(2)` on `None` and raises, modelled `none`);
* group 2 (lazy) then takes the remainder minus what the trailing
  `(\.git)?/?` can absorb: one trailing `/`, and one `.git` right
  before it, whenever group 2 stays nonempty.

These rules were validated case by case against CPython's `re` on
proper URLs, SCP-style URLs, local paths and the corner cases used
below. -/

/-- Characters allowed in a URL scheme after the first letter:
`[A-Za-z0-9+.-]`. -/
def isSchemeChar (c : Char) : Bool :=
  c.isAlphanum || c = '+' || c = '.' || c = '-'

/-- First alternative of the regex: `^[A-Za-z][A-Za-z0-9+.-]*://.+?/`.
Returns the number of characters it consumes (lazily minimal), or
`none` when this alternative cannot match. -/
def schemeBranch (cs : List Char) : Option Nat :=
  match cs with
  | [] => none
  | c :: rest =>
    if c.isAlpha then
      let body := rest.takeWhile isSchemeChar
      let after := rest.drop body.length
      if after.take 3 = [':', '/', '/'] then
        let e := 1 + body.length + 3
        let t := cs.drop e
        match (List.range t.length).find?
            (fun j => 1 ≤ j ∧ t[j]? = some '/' ∧ j + 2 ≤ t.length) with
        | some j => some (e + j + 1)
        | none => none
      else none
    else none

/-- Second alternative of the regex: `^[^/]+?:`.  Returns the position
of the matched `:` (lazily minimal), or `none`. -/
def scpBranch (cs : List Char) : Option Nat :=
  (List.range cs.length).find?
    (fun k => 1 ≤ k ∧ cs[k]? = some ':' ∧ (cs.take k).all (fun c => c ≠ '/') ∧
      k + 2 ≤ cs.length)

/-- The remainder of `url` after group 1 of the regex, or `none` when
the regex does not match at all (empty string). -/
def urlRemainder (url : String) : Option (List Char) :=
  let cs := url.data
  match schemeBranch cs with
  | some n => some (cs.drop n)
  | none =>
    match scpBranch cs with
    | some k => some (cs.drop (k + 1))
    | none => if cs.isEmpty then none else some cs

/-- Group 2 of the regex given the nonempty remainder after group 1:
the lazy group keeps the minimal nonempty prefix, letting `(\.git)?/?`
absorb one trailing `/` and one `.git` just before it. -/
def stripGroup2 (r : String) : String :=
  if strEndsWith r ".git/" ∧ 5 < r.length then r.dropRight 5
  else if strEndsWith r ".git" ∧ 4 < r.length then r.dropRight 4
  else if strEndsWith r "/" ∧ 1 < r.length then r.dropRight 1
  else r

/-- `group(2)` of the source regex applied to `url`. -/
def regexGroup2 (url : String) : Option String :=
  match urlRemainder url with
  | none => none
  | some r => some (stripGroup2 (String.mk r))

/-! ### MD5

`make_remote_name` appends the first 8 hex characters of the MD5 digest
of the UTF-8 encoding of the URL.  MD5 (RFC 1321) implemented over
`Nat` with explicit reduction modulo 2^32. -/

/-- UTF-8 encoding of one character as byte values. -/
def charUtf8 (c : Char) : List Nat :=
  let n := c.toNat
  if n < 128 then [n]
  else if n < 2048 then
    [192 ||| (n >>> 6), 128 ||| (n &&& 63)]
  else if n < 65536 then
    [224 ||| (n >>> 12), 128 ||| ((n >>> 6) &&& 63), 128 ||| (n &&& 63)]
  else
    [240 ||| (n >>> 18), 128 ||| ((n >>> 12) &&& 63),
     128 ||| ((n >>> 6) &&& 63), 128 ||| (n &&& 63)]

/-- UTF-8 encoding of a string as byte values (`url.encode("utf-8")`). -/
def utf8Bytes (s : String) : List Nat :=
  (s.data.map charUtf8).flatten

/-- The 64 MD5 sine-table constants `K`. -/
def md5K : List Nat :=
  [0xd76aa478, 0xe8c7b756, 0x242070db, 0xc1bdceee, 0xf57c0faf, 0x4787c62a, 0xa8304613, 0xfd469501,
   0x698098d8, 0x8b44f7af, 0xffff5bb1, 0x895cd7be, 0x6b901122, 0xfd987193, 0xa679438e, 0x49b40821,
   0xf61e2562, 0xc040b340, 0x265e5a51, 0xe9b6c7aa, 0xd62f105d, 0x02441453, 0xd8a1e681, 0xe7d3fbc8,
   0x21e1cde6, 0xc33707d6, 0xf4d50d87, 0x455a14ed, 0xa9e3e905, 0xfcefa3f8, 0x676f02d9, 0x8d2a4c8a,
   0xfffa3942, 0x8771f681, 0x6d9d6122, 0xfde5380c, 0xa4beea44, 0x4bdecfa9, 0xf6bb4b60, 0xbebfbc70,
   0x289b7ec6, 0xeaa127fa, 0xd4ef3085, 0x04881d05, 0xd9d4d039, 0xe6db99e5, 0x1fa27cf8, 0xc4ac5665,
   0xf4292244, 0x432aff97, 0xab9423a7, 0xfc93a039, 0x655b59c3, 0x8f0ccc92, 0xffeff47d, 0x85845dd1,
   0x6fa87e4f, 0xfe2ce6e0, 0xa3014314, 0x4e0811a1, 0xf7537e82, 0xbd3af235, 0x2ad7d2bb, 0xeb86d391]

/-- The 64 MD5 per-round left-rotation amounts `s`. -/
def md5S : List Nat :=
  [7, 12, 17, 22, 7, 12, 17, 22, 7, 12, 17, 22, 7, 12, 17, 22,
   5, 9, 14, 20, 5, 9, 14, 20, 5, 9, 14, 20, 5, 9, 14, 20,
   4, 11, 16, 23, 4, 11, 16, 23, 4, 11, 16, 23, 4, 11, 16, 23,
   6, 10, 15, 21, 6, 10, 15, 21, 6, 10, 15, 21, 6, 10, 15, 21]

/-- 32-bit left rotation (for `x < 2^32`, `0 < s < 32`). -/
def rotl32 (x s : Nat) : Nat :=
  ((x <<< s) ||| (x >>> (32 - s))) % 4294967296

/-- MD5 round mixing function for round `i`. -/
def md5F (i b c d : Nat) : Nat :=
  if i < 16 then (b &&& c) ||| ((b ^^^ 4294967295) &&& d)
  else if i < 32 then (d &&& b) ||| ((d ^^^ 4294967295) &&& c)
  else if i < 48 then b ^^^ c ^^^ d
  else c ^^^ (b ||| (d ^^^ 4294967295))

/-- MD5 message-word index for round `i`. -/
def md5G (i : Nat) : Nat :=
  if i < 16 then i
  else if i < 32 then (5 * i + 1) % 16
  else if i < 48 then (3 * i + 5) % 16
  else (7 * i) % 16

/-- One MD5 round: `M` gives the chunk's sixteen 32-bit words. -/
def md5Round (M : Nat → Nat) (st : Nat × Nat × Nat × Nat) (i : Nat) :
    Nat × Nat × Nat × Nat :=
  let a := st.1
  let b := st.2.1
  let c := st.2.2.1
  let d := st.2.2.2
  let f := (md5F i b c d + a + md5K.getD i 0 + M (md5G i)) % 4294967296
  (d, (b + rotl32 f (md5S.getD i 0)) % 4294967296, b, c)

/-- Process one 64-byte chunk. -/
def md5Chunk (st : Nat × Nat × Nat × Nat) (chunk : List Nat) :
    Nat × Nat × Nat × Nat :=
  let M : Nat → Nat := fun g =>
    chunk.getD (4 * g) 0 + 256 * chunk.getD (4 * g + 1) 0 +
      65536 * chunk.getD (4 * g + 2) 0 + 16777216 * chunk.getD (4 * g + 3) 0
  let r := (List.range 64).foldl (md5Round M) st
  ((st.1 + r.1) % 4294967296, (st.2.1 + r.2.1) % 4294967296,
   (st.2.2.1 + r.2.2.1) % 4294967296, (st.2.2.2 + r.2.2.2) % 4294967296)

/-- Little-endian bytes of `n` (`count` of them). -/
def leBytes (n count : Nat) : List Nat :=
  (List.range count).map (fun i => (n >>> (8 * i)) % 256)

/-- MD5 padding: a `0x80` byte, zeros to 56 mod 64, and the bit length
as 8 little-endian bytes. -/
def md5Pad (msg : List Nat) : List Nat :=
  let zeros := (120 - (msg.length + 1) % 64) % 64
  msg ++ [128] ++ List.replicate zeros 0 ++ leBytes (msg.length * 8 % 18446744073709551616) 8

/-- Split into 64-byte chunks (fuel-based structural recursion so that
the kernel can evaluate it). -/
def chunksAux : Nat → List Nat → List (List Nat)
  | 0, _ => []
  | _ + 1, [] => []
  | fuel + 1, b :: bs => (b :: bs).take 64 :: chunksAux fuel ((b :: bs).drop 64)

/-- Split a byte list into 64-byte chunks. -/
def chunks64 (bs : List Nat) : List (List Nat) :=
  chunksAux (bs.length + 1) bs

/-- The four 32-bit MD5 state words after digesting `bytes`. -/
def md5Digest (bytes : List Nat) : Nat × Nat × Nat × Nat :=
  (chunks64 (md5Pad bytes)).foldl md5Chunk
    (0x67452301, 0xefcdab89, 0x98badcfe, 0x10325476)

/-- Lowercase hex digit for `n < 16`. -/
def hexDigit (n : Nat) : Char :=
  if n < 10 then Char.ofNat (48 + n) else Char.ofNat (87 + n)

/-- Two lowercase hex digits of a byte. -/
def byteHex (b : Nat) : List Char :=
  [hexDigit (b / 16 % 16), hexDigit (b % 16)]

/-- Eight lowercase hex characters of a 32-bit word, little-endian byte
order, as in `hashlib.md5(...).hexdigest()`. -/
def wordLeHex (w : Nat) : List Char :=
  ((List.range 4).map (fun i => byteHex (w >>> (8 * i) % 256))).flatten

/-- `hashlib.md5(s.encode("utf-8")).hexdigest()`. -/
def md5hex (s : String) : String :=
  let d := md5Digest (utf8Bytes s)
  String.mk (wordLeHex d.1 ++ wordLeHex d.2.1 ++ wordLeHex d.2.2.1 ++ wordLeHex d.2.2.2)

/-- `hexdigest()[:8]`, the hash suffix used by `make_remote_name`
(slicing a string is taking the first characters). -/
def md5First8 (s : String) : String :=
  String.mk ((md5hex s).data.take 8)

/-- Model of `make_remote_name(url)` from refrepo_git.py (lines
148-164): group 2 of the regex, lowercased with every `/` replaced by
`_`, then `-` and the first 8 hex characters of the MD5 of the original
URL.  `none` models the uncaught `AttributeError` when the regex does
not match (empty URL). -/
def make_remote_name (url : String) : Option String :=
  match regexGroup2 url with
  | none => none
  | some hn =>
    let human := replaceChar '/' '_' (strLower hn)
    some (human ++ "-" ++ md5First8 url)

/-! ## Theorems -/

/-- Auxiliary: a successful `drop_pre_command_git_args` result is a
suffix of the input (the loop only removes tokens from the front). -/
theorem drop_pre_suffix_aux :
    ∀ (n : Nat) (args r : List String), args.length ≤ n →
      drop_pre_command_git_args args = some r → r <:+ args := by
  intro n
  induction n with
  | zero =>
    intro args r h hr
    rcases args with _ | ⟨a, rest⟩
    · simp only [drop_pre_command_git_args, Option.some.injEq] at hr
      subst hr
      exact List.suffix_refl []
    · simp at h
  | succ n ih =>
    intro args r h hr
    rcases args with _ | ⟨a, _ | ⟨b, rest⟩⟩
    · simp only [drop_pre_command_git_args, Option.some.injEq] at hr
      subst hr
      exact List.suffix_refl []
    · simp only [drop_pre_command_git_args] at hr
      split at hr
      · exact absurd hr (by simp)
      · split at hr
        · cases hr
          exact List.suffix_refl _
        · cases hr
          exact List.nil_suffix
    · simp only [drop_pre_command_git_args] at hr
      split at hr
      · exact absurd hr (by simp)
      · split at hr
        · cases hr
          exact List.suffix_refl _
        · split at hr
          · have hlen : rest.length ≤ n := by
              simp only [List.length_cons] at h
              omega
            exact (ih rest r hlen hr).trans
              ((List.suffix_cons b rest).trans (List.suffix_cons a (b :: rest)))
          · have hlen : (b :: rest).length ≤ n := by
              simp only [List.length_cons] at h ⊢
              omega
            exact (ih (b :: rest) r hlen hr).trans (List.suffix_cons a (b :: rest))

/-- Auxiliary: the tokens dropped by `drop_pre_command_git_args` are
exactly the first `args.length - r.length` tokens. -/
theorem drop_pre_eq_drop (args r : List String)
    (h : drop_pre_command_git_args args = some r) :
    args.drop (args.length - r.length) = r := by
  obtain ⟨t, rfl⟩ := drop_pre_suffix_aux args.length args r le_rfl h
  simp

/-- C1: for every argument list whose subcommand, after stripping
pre-command global options, is `clone`, and whenever the
reference-repository path `root_dir/repo` exists as a directory,
`inject_reference_repo_arg` returns the list with the two tokens
`--reference` and `str(root_dir/repo)` inserted immediately after
`clone`, at position 1 plus the number of stripped pre-command tokens;
when the first two remaining tokens are `submodule add` or
`submodule update`, the two tokens are inserted immediately after those
two tokens (position 2 plus the stripped count), with all other tokens
preserved in their original order. -/
theorem inject_reference_repo_arg_inserts (isDir : String → Bool)
    (args dargs : List String) (root_dir repo : String)
    (hdir : isDir (pathJoin root_dir repo) = true)
    (hdrop : drop_pre_command_git_args args = some dargs) :
    args.drop (args.length - dargs.length) = dargs ∧
    (dargs.head? = some "clone" →
      inject_reference_repo_arg isDir args root_dir repo =
        some (args.take (1 + (args.length - dargs.length)) ++
          ["--reference", pathJoin root_dir repo] ++
          args.drop (1 + (args.length - dargs.length)))) ∧
    (dargs.head? = some "submodule" →
      dargs[1]? = some "add" ∨ dargs[1]? = some "update" →
      inject_reference_repo_arg isDir args root_dir repo =
        some (args.take (2 + (args.length - dargs.length)) ++
          ["--reference", pathJoin root_dir repo] ++
          args.drop (2 + (args.length - dargs.length)))) := by
  refine ⟨drop_pre_eq_drop args dargs hdrop, ?_, ?_⟩
  · intro hclone
    simp [inject_reference_repo_arg, hdir, hdrop, hclone, Nat.add_comm]
  · intro hsub hone
    rcases hone with h1 | h1
    · obtain ⟨hlen, _⟩ := List.getElem?_eq_some.mp h1
      have hlen2 : 2 ≤ dargs.length := hlen
      simp [inject_reference_repo_arg, hdir, hdrop, hsub, h1, hlen2, Nat.add_comm]
    · obtain ⟨hlen, _⟩ := List.getElem?_eq_some.mp h1
      have hlen2 : 2 ≤ dargs.length := hlen
      simp [inject_reference_repo_arg, hdir, hdrop, hsub, h1, hlen2, Nat.add_comm]

/-- Witness for C1: the repository's own test case — `-C /tmp/test-repo
submodule update --init --recursive` with root `/usr`, repo `bin`. -/
theorem inject_reference_repo_arg_inserts_witness :
    inject_reference_repo_arg (fun _ => true)
        ["-C", "/tmp/test-repo", "submodule", "update", "--init", "--recursive"]
        "/usr" "bin" =
      some ["-C", "/tmp/test-repo", "submodule", "update", "--reference", "/usr/bin",
        "--init", "--recursive"] := by
  have h := inject_reference_repo_arg_inserts (fun _ => true)
    ["-C", "/tmp/test-repo", "submodule", "update", "--init", "--recursive"]
    ["submodule", "update", "--init", "--recursive"] "/usr" "bin" (by decide) (by decide)
  exact (h.2.2 (by decide) (Or.inr (by decide))).trans (by decide)

/-- C7: for every argument list whose subcommand after pre-command
stripping is not `clone`, `submodule add` or `submodule update`, and
for every argument list whenever `root_dir/repo` is not an existing
directory, `inject_reference_repo_arg` returns its input unchanged. -/
theorem inject_reference_repo_arg_frame (isDir : String → Bool)
    (args dargs : List String) (root_dir repo : String) :
    (isDir (pathJoin root_dir repo) = false →
      inject_reference_repo_arg isDir args root_dir repo = some args) ∧
    (drop_pre_command_git_args args = some dargs →
      dargs.head? ≠ some "clone" →
      ¬(dargs.head? = some "submodule" ∧
        (dargs[1]? = some "add" ∨ dargs[1]? = some "update")) →
      inject_reference_repo_arg isDir args root_dir repo = some args) := by
  constructor
  · intro hdir
    simp [inject_reference_repo_arg, hdir]
  · intro hdrop h1 h2
    cases hdir : isDir (pathJoin root_dir repo) with
    | false => simp [inject_reference_repo_arg, hdir]
    | true =>
      have hadd : ¬(2 ≤ dargs.length ∧ dargs.head? = some "submodule" ∧
          dargs[1]? = some "add") := by tauto
      have hupd : ¬(2 ≤ dargs.length ∧ dargs.head? = some "submodule" ∧
          dargs[1]? = some "update") := by tauto
      simp only [inject_reference_repo_arg, hdir, hdrop]
      rw [if_neg h1, if_neg hadd, if_neg hupd]
      norm_num

/-- Witness for C7: `git status` is left unchanged whether or not the
reference repository exists. -/
theorem inject_reference_repo_arg_frame_witness :
    inject_reference_repo_arg (fun _ => false) ["status"] "/usr" "bin" = some ["status"] ∧
    inject_reference_repo_arg (fun _ => true) ["status"] "/usr" "bin" = some ["status"] := by
  constructor
  · exact (inject_reference_repo_arg_frame (fun _ => false) ["status"] ["status"]
      "/usr" "bin").1 (by decide)
  · exact (inject_reference_repo_arg_frame (fun _ => true) ["status"] ["status"]
      "/usr" "bin").2 (by decide) (by decide) (by decide)

/-- C8 counterexample: the claim says a bare `--` terminates the skip,
so the token after `--` (even one starting with `-`) marks the
subcommand boundary and is kept.  On `["--", "-x"]` the code instead
also skips `-x` and returns the empty list, not `["-x"]`. -/
theorem drop_pre_command_git_args_counterexample :
    drop_pre_command_git_args ["--", "-x"] = some [] ∧
    (["-x"] : List String) ≠ [] := by
  constructor
  · decide
  · decide

/-- C8 (amended): `-C` and `-c` each consume exactly one following
value token; every other leading `-`-prefixed token, including a bare
`--`, consumes only itself and the skip continues past it — there is
no `--` terminator in `drop_pre_command_git_args`, so a token starting
with `-` that follows `--` is also skipped.  The skip stops at the
first token not starting with `-` (and an empty-string token raises). -/
theorem drop_pre_command_git_args_spec :
    (∀ rest : List String, drop_pre_command_git_args ("--" :: rest) =
      drop_pre_command_git_args rest) ∧
    (∀ (v : String) (rest : List String),
      drop_pre_command_git_args ("-C" :: v :: rest) = drop_pre_command_git_args rest) ∧
    (∀ (v : String) (rest : List String),
      drop_pre_command_git_args ("-c" :: v :: rest) = drop_pre_command_git_args rest) ∧
    (∀ (a : String) (rest : List String) (c : Char),
      a.data.head? = some c → c ≠ '-' →
      drop_pre_command_git_args (a :: rest) = some (a :: rest)) ∧
    (∀ (a : String) (b : String) (rest : List String),
      a.data.head? = some '-' → a ≠ "-C" → a ≠ "-c" →
      drop_pre_command_git_args (a :: b :: rest) =
        drop_pre_command_git_args (b :: rest)) ∧
    (∀ (a : String) (c : Char), a.data.head? = some c → c = '-' →
      drop_pre_command_git_args [a] = some []) ∧
    drop_pre_command_git_args [] = some [] := by
  refine ⟨?_, ?_, ?_, ?_, ?_, ?_, rfl⟩
  · intro rest
    cases rest <;> rfl
  · intro v rest
    rfl
  · intro v rest
    rfl
  · intro a rest c hc hne
    cases rest with
    | nil =>
      simp only [drop_pre_command_git_args, hc]
      rw [if_pos hne]
    | cons b rest2 =>
      simp only [drop_pre_command_git_args, hc]
      rw [if_pos hne]
  · intro a b rest hc hC hcl
    simp only [drop_pre_command_git_args, hc]
    rw [if_neg (by simp), if_neg (by simp [hC, hcl])]
  · intro a c hc hdash
    subst hdash
    simp only [drop_pre_command_git_args, hc]
    rw [if_neg (by simp)]

/-- Witness for C8 (amended): concrete instances — a non-option token
stops the skip, and `--` does not terminate it. -/
theorem drop_pre_command_git_args_spec_witness :
    drop_pre_command_git_args ["clone"] = some ["clone"] ∧
    drop_pre_command_git_args ["--", "-x"] = drop_pre_command_git_args ["-x"] ∧
    drop_pre_command_git_args ["-C", "/tmp", "clone"] = drop_pre_command_git_args ["clone"] := by
  refine ⟨?_, ?_, ?_⟩
  · exact drop_pre_command_git_args_spec.2.2.2.1 "clone" [] 'c' rfl (by decide)
  · exact drop_pre_command_git_args_spec.1 ["-x"]
  · exact drop_pre_command_git_args_spec.2.1 "/tmp" ["clone"]

/-- C9: any argument list whose first token is the empty string makes
`drop_pre_command_git_args` raise an uncaught `IndexError`
(`args[0][0]` on `""`), so `drop_pre_command_git_args`,
`should_update_remotes` and (when the reference-repository path exists
as a directory) `inject_reference_repo_arg` are not total over
arbitrary lists of strings. -/
theorem drop_pre_command_git_args_not_total :
    (∀ rest : List String, drop_pre_command_git_args ("" :: rest) = none) ∧
    (∀ rest : List String, should_update_remotes ("" :: rest) = none) ∧
    (∀ (isDir : String → Bool) (rest : List String) (root_dir repo : String),
      isDir (pathJoin root_dir repo) = true →
      inject_reference_repo_arg isDir ("" :: rest) root_dir repo = none) := by
  have hdrop : ∀ rest : List String, drop_pre_command_git_args ("" :: rest) = none := by
    intro rest
    cases rest <;> rfl
  refine ⟨hdrop, ?_, ?_⟩
  · intro rest
    simp [should_update_remotes, hdrop rest]
  · intro isDir rest root_dir repo hdir
    simp [inject_reference_repo_arg, hdir, hdrop rest]

/-- Witness for C9: the concrete argument list `[""]` with an
always-true directory oracle. -/
theorem drop_pre_command_git_args_not_total_witness :
    inject_reference_repo_arg (fun _ => true) [""] "/usr" "bin" = none := by
  exact drop_pre_command_git_args_not_total.2.2 (fun _ => true) [] "/usr" "bin" rfl

/-- A string has positive length exactly when it is nonempty. -/
theorem str_length_pos (s : String) : 0 < s.length ↔ s ≠ "" := by
  constructor
  · intro hp he
    subst he
    simp at hp
  · intro hne
    cases hs : s.length with
    | zero =>
      simp only [String.length] at hs
      exact absurd (String.ext (List.length_eq_zero.mp hs)) hne
    | succ n => omega

/-- C4 counterexample: for the single positional token `"myrepo"` the
claim says the target is its last path segment `"myrepo"` (nonempty,
so no error); the code instead takes the `url.rfind("/") = -1` branch
and raises, because the token contains no `/`. -/
theorem get_clone_target_path_counterexample :
    get_clone_target_path ["myrepo"] = none ∧ ("myrepo" : String) ≠ "" := by
  exact ⟨by decide, by decide⟩

/-- C4 (amended): after skipping the fixed two-token clone options and
other single-token `-` options (honoring a `--` terminator): if two or
more tokens remain the second is returned; if none remains an error is
signaled; if exactly one remains, an error is signaled when it contains
no `/`, and otherwise the substring after its last `/` with one
trailing `.git` suffix stripped is returned when nonempty and an error
is signaled when it is empty. -/
theorem get_clone_target_path_spec (args args2 : List String)
    (h : dropCloneOpts args = some args2) :
    (∀ (a b : String) (rest : List String), args2 = a :: b :: rest →
      get_clone_target_path args = some b) ∧
    (args2 = [] → get_clone_target_path args = none) ∧
    (∀ url : String, args2 = [url] → url.data.contains '/' = false →
      get_clone_target_path args = none) ∧
    (∀ (url seg : String), args2 = [url] → lastSegmentAfterSlash url = some seg →
      get_clone_target_path args =
        (if (if strEndsWith seg ".git" then seg.dropRight 4 else seg) = "" then none
         else some (if strEndsWith seg ".git" then seg.dropRight 4 else seg))) := by
  refine ⟨?_, ?_, ?_, ?_⟩
  · rintro a b rest rfl
    simp [get_clone_target_path, h]
  · rintro rfl
    simp [get_clone_target_path, h]
  · rintro url rfl hnos
    have hmem : ¬('/' ∈ url.data) := by simpa using hnos
    simp [get_clone_target_path, h, lastSegmentAfterSlash, hmem]
  · rintro url seg rfl hseg
    simp only [get_clone_target_path, h]
    rw [if_neg (by norm_num)]
    simp only [hseg]
    by_cases hempty : (if strEndsWith seg ".git" then seg.dropRight 4 else seg) = ""
    · rw [if_pos hempty, if_neg]
      rw [hempty]
      simp
    · rw [if_neg hempty, if_pos ((str_length_pos _).mpr hempty)]

/-- Witness for C4 (amended): a URL-only clone derives the target from
the last path segment with `.git` stripped. -/
theorem get_clone_target_path_spec_witness :
    get_clone_target_path ["https://example.com/org/Repo.git"] = some "Repo" := by
  have h := (get_clone_target_path_spec ["https://example.com/org/Repo.git"]
    ["https://example.com/org/Repo.git"] (by decide)).2.2.2
  exact (h "https://example.com/org/Repo.git" "Repo.git" rfl (by decide)).trans (by decide)

/-- A lowercase hexadecimal character. -/
def isHexLowerChar (c : Char) : Bool :=
  c.isDigit || ('a' ≤ c && c ≤ 'f')

/-- `hexDigit` of a value below 16 is a lowercase hex character. -/
theorem hexDigit_isHex (n : Nat) (h : n < 16) :
    isHexLowerChar (hexDigit n) = true := by
  interval_cases n <;> decide

/-- Both characters printed for a byte are lowercase hex characters. -/
theorem byteHex_all_hex (b : Nat) : (byteHex b).all isHexLowerChar = true := by
  have h1 := hexDigit_isHex (b / 16 % 16) (Nat.mod_lt _ (by norm_num))
  have h2 := hexDigit_isHex (b % 16) (Nat.mod_lt _ (by norm_num))
  simp [byteHex, h1, h2]

/-- All eight characters printed for a 32-bit word are lowercase hex. -/
theorem wordLeHex_all_hex (w : Nat) : (wordLeHex w).all isHexLowerChar = true := by
  have h4 : List.range 4 = [0, 1, 2, 3] := rfl
  simp [wordLeHex, h4, byteHex_all_hex]

/-- Every character of an MD5 hex digest is a lowercase hex character. -/
theorem md5hex_data_all (s : String) :
    (md5hex s).data.all isHexLowerChar = true := by
  simp [md5hex, List.all_append, wordLeHex_all_hex]

/-- The MD5 hex digest always has 32 characters, so its 8-character
prefix always has 8. -/
theorem md5First8_length (s : String) : (md5First8 s).length = 8 := rfl

/-- Every character of the 8-character hash suffix is lowercase hex. -/
theorem md5First8_all_hex (s : String) :
    (md5First8 s).data.all isHexLowerChar = true := by
  rw [List.all_eq_true]
  intro c hc
  have hmem : c ∈ (md5hex s).data := List.mem_of_mem_take hc
  have hall := md5hex_data_all s
  rw [List.all_eq_true] at hall
  exact hall c hmem

/-- C5: for every URL on which the source regex matches (all nonempty
strings), `make_remote_name` returns `<human>-<hash8>`: the regex's
group 2 (the part after the authority for `scheme://` URLs, after the
first eligible `:` for SCP-style URLs, or the whole string for local
paths, with one trailing `.git` and one trailing `/` stripped),
lowercased with every `/` replaced by `_`, joined by `-` to the first
8 lowercase hex characters of the MD5 digest of the original
un-normalized URL; in particular `https://example.com/org/Repo.git`
yields human part `org/Repo` and name `org_repo-fd5b0ec6`, whose
digest matches `hashlib.md5` (`fd5b0ec607f333ccedac357dc51ac3bf`). -/
theorem make_remote_name_spec :
    (∀ url hn : String, regexGroup2 url = some hn →
      make_remote_name url =
        some (replaceChar '/' '_' (strLower hn) ++ "-" ++ md5First8 url)) ∧
    (∀ url : String, (md5First8 url).length = 8 ∧
      (md5First8 url).data.all isHexLowerChar = true) ∧
    regexGroup2 "https://example.com/org/Repo.git" = some "org/Repo" ∧
    md5hex "https://example.com/org/Repo.git" = "fd5b0ec607f333ccedac357dc51ac3bf" ∧
    make_remote_name "https://example.com/org/Repo.git" = some "org_repo-fd5b0ec6" := by
  refine ⟨?_, ?_, by decide, by decide, by decide⟩
  · intro url hn h
    simp [make_remote_name, h]
  · intro url
    exact ⟨md5First8_length url, md5First8_all_hex url⟩

/-- Witness for C5: the SCP-style URL branch at a concrete input. -/
theorem make_remote_name_spec_witness :
    make_remote_name "git@github.com:user/repo.git" =
      some (replaceChar '/' '_' (strLower "user/repo") ++ "-" ++
        md5First8 "git@github.com:user/repo.git") := by
  exact make_remote_name_spec.1 "git@github.com:user/repo.git" "user/repo" (by decide)

/-- C6: writing the same name/url pair twice leaves exactly one file
for that name holding the first write's content, and the second call
reports "not written"; more generally a call for an already-existing
file is a no-op that never overwrites the existing content. -/
theorem atomic_write_idempotent (d : ConfDir) (path data data2 : String)
    (habs : lookupFile d path = none) :
    (atomic_write d path data).2 = true ∧
    lookupFile (atomic_write d path data).1 path = some data ∧
    atomic_write (atomic_write d path data).1 path data2 =
      ((atomic_write d path data).1, false) ∧
    (∀ (d' : ConfDir) (c : String), lookupFile d' path = some c →
      atomic_write d' path data2 = (d', false)) := by
  have hl : lookupFile ((path, data) :: d) path = some data := by
    simp [lookupFile]
  refine ⟨?_, ?_, ?_, ?_⟩
  · simp [atomic_write, habs]
  · simp [atomic_write, habs, hl]
  · simp [atomic_write, habs, hl]
  · intro d' c hc
    simp [atomic_write, hc]

/-- Witness for C6: a concrete double write into an empty directory. -/
theorem atomic_write_idempotent_witness :
    (atomic_write [] "org_repo-fd5b0ec6.remote" "https://example.com/org/Repo.git").2 = true ∧
    atomic_write
        (atomic_write [] "org_repo-fd5b0ec6.remote" "https://example.com/org/Repo.git").1
        "org_repo-fd5b0ec6.remote" "https://example.com/org/Repo.git" =
      ((atomic_write [] "org_repo-fd5b0ec6.remote" "https://example.com/org/Repo.git").1,
        false) := by
  have h := atomic_write_idempotent [] "org_repo-fd5b0ec6.remote"
    "https://example.com/org/Repo.git" "https://example.com/org/Repo.git" (by decide)
  exact ⟨h.1, h.2.2.1⟩

/-- Auxiliary for C2: the names added by the update loop are exactly
the requested names that are not yet present. -/
theorem addedRemotes_names (existing : Finset String) (requested : List RemoteRec) :
    ((addedRemotes existing requested).map Prod.fst).toFinset =
      requestedNames requested \ existing := by
  ext x
  simp only [addedRemotes, requestedNames, List.mem_toFinset, List.mem_map,
    List.mem_filter, Finset.mem_sdiff, decide_not, Bool.not_eq_true', decide_eq_false_iff_not]
  constructor
  · rintro ⟨r, ⟨hmem, hnot⟩, rfl⟩
    exact ⟨⟨r, hmem, rfl⟩, hnot⟩
  · rintro ⟨⟨r, hmem, rfl⟩, hnot⟩
    exact ⟨r, ⟨hmem, hnot⟩, rfl⟩

/-- C2: after `update` runs, the reference repository's remote set
equals exactly the set of names in the config store; consequently a
second run against an unchanged store performs zero `git remote add`
and zero `git remote remove` operations. -/
theorem updateRemoteSet_reconciles (existing : Finset String)
    (requested : List RemoteRec) :
    updateRemoteSet existing requested = requestedNames requested ∧
    addedRemotes (updateRemoteSet existing requested) requested = [] ∧
    removedRemotes (updateRemoteSet existing requested) requested = ∅ := by
  have hmain : updateRemoteSet existing requested = requestedNames requested := by
    rw [updateRemoteSet, addedRemotes_names, removedRemotes]
    ext x
    simp only [Finset.mem_sdiff, Finset.mem_union]
    by_cases hx : x ∈ existing <;> by_cases hr : x ∈ requestedNames requested <;>
      simp [hx, hr]
  refine ⟨hmain, ?_, ?_⟩
  · rw [hmain, addedRemotes, List.filter_eq_nil_iff]
    intro r hr
    simp only [requestedNames, List.mem_toFinset, List.mem_map, decide_not,
      Bool.not_eq_true', decide_eq_false_iff_not, not_not]
    exact ⟨r, hr, rfl⟩
  · rw [hmain, removedRemotes, Finset.sdiff_self]

/-- C10: when the reference repository's objects directory and the
client's `.git/objects/info` directory both exist, `add_alternates`
ensures the alternates file exists (creating it empty even for
non-`fetch` invocations, since the `touch` precedes the fetch check),
and appends `objPath` plus a newline exactly when the subcommand is
`fetch` and no existing line equals the objects path as a normalized
path. -/
theorem add_alternates_spec (args args2 : List String) (objPath : String)
    (fs : AltFS) (hobj : fs.objectsIsDir = true) (hinfo : fs.infoIsDir = true)
    (hdrop : drop_pre_command_git_args args = some args2) :
    (args2.head? ≠ some "fetch" →
      add_alternates args objPath fs =
        ({ fs with alternates := some (fs.alternates.getD "") }, false)) ∧
    (args2.head? = some "fetch" →
      ((pyLines (fs.alternates.getD "")).any
          (fun line => pathNorm (strTrim line) = pathNorm objPath) = true →
        add_alternates args objPath fs =
          ({ fs with alternates := some (fs.alternates.getD "") }, false)) ∧
      ((pyLines (fs.alternates.getD "")).any
          (fun line => pathNorm (strTrim line) = pathNorm objPath) = false →
        add_alternates args objPath fs =
          ({ fs with
              alternates := some (fs.alternates.getD "" ++ objPath ++ "\n") },
            false))) := by
  refine ⟨?_, ?_⟩
  · intro hnf
    simp [add_alternates, hobj, hinfo, hdrop, hnf]
  · intro hf
    refine ⟨?_, ?_⟩
    · intro hdup
      simp [add_alternates, hobj, hinfo, hdrop, hf, hdup]
    · intro hdup
      simp [add_alternates, hobj, hinfo, hdrop, hf, hdup]

/-- Witness for C10: a `status` invocation creates an empty alternates
file, and a `fetch` invocation appends the objects path once. -/
theorem add_alternates_spec_witness :
    add_alternates ["status"] "/r/refrepo.git/objects" ⟨true, true, none⟩ =
      (⟨true, true, some ""⟩, false) ∧
    add_alternates ["fetch"] "/r/refrepo.git/objects" ⟨true, true, some ""⟩ =
      (⟨true, true, some "/r/refrepo.git/objects\n"⟩, false) := by
  constructor
  · exact ((add_alternates_spec ["status"] ["status"] "/r/refrepo.git/objects"
      ⟨true, true, none⟩ rfl rfl (by decide)).1 (by decide)).trans (by decide)
  · exact (((add_alternates_spec ["fetch"] ["fetch"] "/r/refrepo.git/objects"
      ⟨true, true, some ""⟩ rfl rfl (by decide)).2 (by decide)).2 (by decide)).trans
      (by decide)

/-- C3 counterexample: with the reference repository absent, the
argument list `[""]`, an existing objects directory and client info
directory, and a wrapped git exit code of 0, `add_alternates` raises an
uncaught `IndexError` before git is ever invoked, and the wrapper exits
1 instead of the wrapped git exit code 0 — so a failure during
alternates injection does alter the exit code. -/
theorem main_exit_counterexample :
    main_exit (fun _ => false) [""] "/refrepo" "refrepo.git"
      ⟨true, true, none⟩ 0 false = 1 ∧ (1 : Nat) ≠ 0 := by
  exact ⟨by decide, by decide⟩

/-- C3 (amended): whenever argument rewriting and alternates injection
complete without raising, the wrapper's exit code equals the wrapped
git process's exit code exactly, and a failure during remote
reconciliation (which runs inside `try`/`except`) never alters it;
however, an uncaught exception during alternates injection or argument
rewriting — which run before the wrapped git invocation — makes the
wrapper exit 1 without running git. -/
theorem main_exit_spec (isDir : String → Bool) (args injected : List String)
    (root_dir repo : String) (fs : AltFS) (gitRc : Nat) (r r' : Bool)
    (hinj : inject_reference_repo_arg isDir args root_dir repo = some injected)
    (halt : (add_alternates args (pathJoin (pathJoin root_dir repo) "objects") fs).2
      = false) :
    main_exit isDir args root_dir repo fs gitRc r = gitRc ∧
    main_exit isDir args root_dir repo fs gitRc r =
      main_exit isDir args root_dir repo fs gitRc r' := by
  have h1 : ∀ b : Bool, main_exit isDir args root_dir repo fs gitRc b = gitRc := by
    intro b
    simp only [main_exit, hinj, halt]
    by_cases hrc : gitRc = 0
    · simp [hrc, halt]
    · simp [hrc, halt]
  exact ⟨h1 r, (h1 r).trans (h1 r').symm⟩

/-- Witness for C3 (amended): a plain `git status` with no reference
repository set up propagates git's exit code 5 regardless of whether
reconciliation would raise. -/
theorem main_exit_spec_witness :
    main_exit (fun _ => false) ["status"] "/refrepo" "refrepo.git"
      ⟨false, false, none⟩ 5 true = 5 ∧
    main_exit (fun _ => false) ["status"] "/refrepo" "refrepo.git"
      ⟨false, false, none⟩ 5 true =
      main_exit (fun _ => false) ["status"] "/refrepo" "refrepo.git"
        ⟨false, false, none⟩ 5 false := by
  exact main_exit_spec (fun _ => false) ["status"] ["status"] "/refrepo" "refrepo.git"
    ⟨false, false, none⟩ 5 true false (by decide) (by decide)
